import Mathlib

/-
Verification development for the query/mapping layer in
Trakttv.bundle/Contents/Libraries/Shared/plex_database/library.py.

The Python module is shallowly embedded below.  Pure computations become
Lean functions; Python exceptions become an explicit error type threaded
through `Except`; database queries are inert description values (the layer
under verification only builds query descriptions and consumes row
cursors, so execution is modelled as a separate stage).
-/

set_option maxHeartbeats 1000000

namespace PlexDB

/-- Modelled from the spec: the closed set of sub-entity models referenced by
`library.py` (the model classes themselves live in `plex_database.models`,
which is an external collaborator, spec section 6).  Per spec section 4.1,
`Season` and `Episode` are index-only alias variants of the core
`MetadataItem` model: they are distinct objects (a field can be compared
against them individually, as `LibraryBase._parse` does) but they denote
the same underlying table/class.  -/
inductive Model where
  | metadataItem
  | season
  | episode
  | mediaItem
  | mediaPart
  | metadataItemSettings
  | tags
  | taggings
deriving DecidableEq, Repr

/-- Modelled from the spec: the Python class name of each model, as read by
`LibraryBase._models` via `model.__name__`.  The index-only alias variants
`Season` and `Episode` forward attribute reads to the underlying core
model, so their name is the core model name `MetadataItem`; this is required
for `EpisodeLibrary.mapped_episodes` to be able to pass `Season.id` /
`Episode.id` fields through `_models` and `_join` without tripping the
unknown-model error (its exclude list names neither `Season` nor
`Episode`), i.e. for the spec section 4.5 pipeline to function at all. -/
def modelName : Model → String
  | .metadataItem => "MetadataItem"
  | .season => "MetadataItem"
  | .episode => "MetadataItem"
  | .mediaItem => "MediaItem"
  | .mediaPart => "MediaPart"
  | .metadataItemSettings => "MetadataItemSettings"
  | .tags => "Tags"
  | .taggings => "Taggings"

/-- Semantic type of a column, after unwrapping a `FieldProxy` to its
`field_instance` the way `LibraryBase._parse_field` does. -/
inductive FieldType where
  | plain
  | dateTime
deriving DecidableEq, Repr

/-- A field descriptor: column name, owning model and semantic type. -/
structure Field where
  name : String
  modelClass : Model
  fieldType : FieldType
deriving DecidableEq, Repr

/-- The Python exceptions `library.py` can raise, by identity. -/
inductive PyErr where
  /-- ValueError: MetadataItemSettings fields require the account parameter. -/
  | valueSettingsAccount
  /-- ValueError: Unable to join unknown model (raised by `_join`). -/
  | valueUnknownJoin (m : Model)
  /-- ValueError: Unable to parse field, unknown model (raised by `_parse`). -/
  | valueUnknownField (fieldName : String) (m : Model)
  /-- TypeError from item-assignment on a non-dict value. -/
  | typeError
  /-- IndexError from reading past the end of a row. -/
  | indexError
  /-- AttributeError from calling a method on None. -/
  | attributeError
deriving DecidableEq, Repr

/-- Raw cell values as they come out of the row cursor.  A zone-naive
datetime carries its wall-clock reading in seconds; a zone-aware datetime
carries a fixed UTC offset plus the wall-clock reading at that offset, so
the denoted instant is `wall - off`. -/
inductive Value where
  | none
  | int (n : Int)
  | str (s : String)
  | bool (b : Bool)
  | dt (wall : Int)
  | dtz (off : Int) (wall : Int)
deriving DecidableEq, Repr

/-- Python truthiness test for the values above (`if not value`). -/
def pyFalsy : Value → Bool
  | .none => true
  | .int n => n = 0
  | .str s => s = ""
  | .bool b => !b
  | .dt _ => false
  | .dtz _ _ => false

/-- Python dict get: first (and only, keys are unique by construction)
binding of the key. -/
def dictGet {κ α : Type} [DecidableEq κ] : List (κ × α) → κ → Option α
  | [], _ => Option.none
  | (k, v) :: rest, key => if k = key then some v else dictGet rest key

/-- Python dict item-assignment: replace the binding in place if the key is
present, otherwise append the new binding. -/
def dictSet {κ α : Type} [DecidableEq κ] : List (κ × α) → κ → α → List (κ × α)
  | [], key, v => [(key, v)]
  | (k, w) :: rest, key, v =>
    if k = key then (key, v) :: rest else (k, w) :: dictSet rest key v

/-- A value stored in a decoded record: either a plain converted cell value
or a nested sub-entity dict (the record is a single Python dict whose
entries can be either). -/
inductive RVal where
  | v (x : Value)
  | d (m : List (String × Value))
deriving DecidableEq, Repr

/-- A decoded record: one Python dict, as built by `LibraryBase._parse`. -/
abbrev Record := List (String × RVal)

/-- The `MODEL_KEYS` table at the top of `library.py`: nesting key of each
recognized secondary sub-entity. -/
def MODEL_KEYS : Model → Option String
  | .mediaItem => some "media"
  | .mediaPart => some "part"
  | .metadataItemSettings => some "settings"
  | _ => Option.none

/-- `datetime.fromtimestamp`: epoch seconds to a naive local wall-clock
reading; `sysOff` is the operating-system local UTC offset in seconds
(available regardless of whether the `tzlocal` module imported). -/
def fromtimestamp (sysOff : Int) (n : Int) : Int := n + sysOff

/-- `TZ_LOCAL.localize`: attach the local zone to a naive wall-clock
reading. -/
def localize (off : Int) (wall : Int) : Value := .dtz off wall

/-- `astimezone(pytz.utc)`: re-express an aware datetime at offset zero,
preserving the denoted instant.  Non-aware values are left alone
(unreachable in the embedding). -/
def astimezoneUTC : Value → Value
  | .dtz off wall => .dtz 0 (wall - off)
  | v => v

/-- `LibraryBase._parse_field` (library.py lines 177-205).  `tzAvail` is
whether the module-level `TZ_LOCAL` / `pytz` import succeeded; when it did,
the local zone agrees with the operating-system offset `sysOff`.  Note the
source converts an integer value through `TZ_LOCAL.localize` BEFORE the
`not TZ_LOCAL or not pytz` guard, so an integer with `tzAvail = false`
raises AttributeError (None has no localize attribute). -/
def parseField (sysOff : Int) (tzAvail : Bool) (f : Field) (v : Value) :
    Except PyErr Value :=
  if f.fieldType = .dateTime then
    if pyFalsy v then .ok .none
    else
      match v with
      | .int n =>
        if tzAvail then .ok (astimezoneUTC (localize sysOff (fromtimestamp sysOff n)))
        else .error .attributeError
      | .dtz off wall => .ok (.dtz off wall)
      | .dt wall =>
        if tzAvail then .ok (astimezoneUTC (localize sysOff wall)) else .ok (.dt wall)
      | _ => .ok .none
  else .ok v

/-- One returned cell of `LibraryBase._parse`: either a raw leading row
value (copied through unconverted) or the decoded record appended at the
end. -/
inductive Cell where
  | raw (v : Value)
  | record (r : Record)
deriving DecidableEq, Repr

/-- The per-field record update inside the `_parse` loop (library.py lines
162-173): primary-entity fields (`MetadataItem`, the `Episode` alias) go to
top-level keys, `MODEL_KEYS` sub-entities go to a nested dict created on
demand, anything else raises ValueError. -/
def storeField (f : Field) (value : Value) (item : Record) : Except PyErr Record :=
  if f.modelClass = .metadataItem ∨ f.modelClass = .episode then
    .ok (dictSet item f.name (.v value))
  else
    match MODEL_KEYS f.modelClass with
    | some key =>
      let item1 :=
        match dictGet item key with
        | Option.none => dictSet item key (.d [])
        | some _ => item
      match dictGet item1 key with
      | some (RVal.d m) => .ok (dictSet item1 key (RVal.d (dictSet m f.name value)))
      | _ => .error .typeError
    | Option.none => .error (.valueUnknownField f.name f.modelClass)

/-- The loop of `LibraryBase._parse` over indices `offset .. len(fields)`,
here running over the two suffixes.  A field index past the end of the row
raises IndexError, exactly as `row[x]` would. -/
def parseFrom (sysOff : Int) (tzAvail : Bool) :
    List Field → List Value → Record → Except PyErr Record
  | [], _, item => .ok item
  | _ :: _, [], _ => .error .indexError
  | f :: fs, v :: vs, item => do
    let value ← parseField sysOff tzAvail f v
    let item2 ← storeField f value item
    parseFrom sysOff tzAvail fs vs item2

/-- `LibraryBase._parse` (library.py lines 147-175): decode one row against
the field list, returning `tuple(list(row[:offset]) + [item])`. -/
def parseRow (sysOff : Int) (tzAvail : Bool) (fields : List Field)
    (row : List Value) (offset : Nat) : Except PyErr (List Cell) := do
  let item ← parseFrom sysOff tzAvail (fields.drop offset) (row.drop offset) []
  pure ((row.take offset).map Cell.raw ++ [Cell.record item])

/-- Query predicates appended by the entity query builders. -/
inductive Pred where
  | sectionIn (ids : List Nat)
  | typeEq (t : Nat)
deriving DecidableEq, Repr

/-- Join conditions used by `_join` / `_join_settings`. -/
inductive OnCond where
  /-- settings.guid == primary.guid AND settings.account == account -/
  | settingsOn (account : Option Nat)
  /-- MediaItem.metadata_item == MetadataItem.id -/
  | mediaOn
deriving DecidableEq, Repr

/-- One appended left-outer join clause. -/
structure JoinClause where
  model : Model
  onCond : OnCond
deriving DecidableEq, Repr

/-- An inert query description: the layer only assembles these; row
fetching (`tupleIterator`) is a separate later stage. -/
structure Query where
  selectFields : List Field
  joins : List JoinClause
  wherePreds : List Pred
deriving DecidableEq, Repr

/-- `LibraryBase._join_settings`: left-outer join of the settings model
scoped by guid and account. -/
def joinSettingsQ (q : Query) (account : Option Nat) : Query :=
  { q with joins := q.joins ++ [{ model := .metadataItemSettings, onCond := .settingsOn account }] }

/-- The media join appended by `LibraryBase._join`. -/
def joinMediaQ (q : Query) : Query :=
  { q with joins := q.joins ++ [{ model := .mediaItem, onCond := .mediaOn }] }

/-- `LibraryBase._models` is a generator that the loop of
`LibraryBase._join` consumes lazily; this function is the fused
computation the query builders execute: walk the fields in order, dedup
owning models by class name, raise the settings/account ValueError on the
first new settings model when no account was supplied, and otherwise feed
each new model to the `_join` dispatch (skip the primary entity and
excluded models, join settings or media, fail on anything else). -/
def joinModelsLoop (account : Option Nat) (exclude : List Model) :
    List Field → List String → Query → Except PyErr Query
  | [], _, q => .ok q
  | f :: fs, seen, q =>
    let m := f.modelClass
    if modelName m ∈ seen then joinModelsLoop account exclude fs seen q
    else if m = .metadataItemSettings ∧ account = Option.none then
      .error .valueSettingsAccount
    else
      let seen2 := modelName m :: seen
      if m = .metadataItem then joinModelsLoop account exclude fs seen2 q
      else if m ∈ exclude then joinModelsLoop account exclude fs seen2 q
      else if m = .metadataItemSettings then
        joinModelsLoop account exclude fs seen2 (joinSettingsQ q account)
      else if m = .mediaItem then joinModelsLoop account exclude fs seen2 (joinMediaQ q)
      else .error (.valueUnknownJoin m)

/-- `LibraryBase._models` (library.py lines 88-106) consumed in full, as a
standalone sequence: the models it yields, or the ValueError it raises. -/
def modelsLoop (account : Option Nat) : List Field → List String → Except PyErr (List Model)
  | [], _ => .ok []
  | f :: fs, seen =>
    let m := f.modelClass
    if modelName m ∈ seen then modelsLoop account fs seen
    else if m = .metadataItemSettings ∧ account = Option.none then
      .error .valueSettingsAccount
    else do
      let rest ← modelsLoop account fs (modelName m :: seen)
      .ok (m :: rest)

/-- `LibraryBase._models` applied to a field list with an empty seen set. -/
def libraryModels (fields : List Field) (account : Option Nat) : Except PyErr (List Model) :=
  modelsLoop account fields []

/-- `LibraryBase._join` (library.py lines 108-130) applied to an already
materialized model sequence. -/
def libraryJoin : Query → List Model → Option Nat → List Model → Except PyErr Query
  | q, [], _, _ => .ok q
  | q, m :: ms, account, exclude =>
    if m = .metadataItem then libraryJoin q ms account exclude
    else if m ∈ exclude then libraryJoin q ms account exclude
    else if m = .metadataItemSettings then
      libraryJoin (joinSettingsQ q account) ms account exclude
    else if m = .mediaItem then libraryJoin (joinMediaQ q) ms account exclude
    else .error (.valueUnknownJoin m)

/-- Modelled from the spec: the `metadata_type` discriminator constants of
the external models module (distinct per entity type; exact numerals are
not observable to the claims). -/
def MetadataItemType_Movie : Nat := 1

def MetadataItemType_Show : Nat := 2

def MetadataItemType_Season : Nat := 3

def MetadataItemType_Episode : Nat := 4

/-- The shared shape of the `query` methods: build the select, run the
fused `_models` + `_join` pass, then apply the where predicates. -/
def libraryQuery (fields : List Field) (account : Option Nat) (wherePreds : List Pred) :
    Except PyErr Query := do
  let q ← joinModelsLoop account [] fields []
    { selectFields := fields, joins := [], wherePreds := [] }
  pure { q with wherePreds := q.wherePreds ++ wherePreds }

/-- `MovieLibrary.query` (library.py lines 245-273). -/
def movieQuery (sections : List Nat) (fields : List Field) (account : Option Nat)
    (whereCl : List Pred) : Except PyErr Query :=
  libraryQuery fields account
    (whereCl ++ [Pred.sectionIn sections, Pred.typeEq MetadataItemType_Movie])

/-- `ShowLibrary.query` (library.py lines 454-482). -/
def showQuery (sections : List Nat) (fields : List Field) (account : Option Nat)
    (whereCl : List Pred) : Except PyErr Query :=
  libraryQuery fields account
    (whereCl ++ [Pred.sectionIn sections, Pred.typeEq MetadataItemType_Show])

/-- `MetadataItem.id` as a field descriptor. -/
def metadataItem_id : Field := { name := "id", modelClass := .metadataItem, fieldType := .plain }

/-- `MetadataItem.index` as a field descriptor. -/
def metadataItem_index : Field :=
  { name := "index", modelClass := .metadataItem, fieldType := .plain }

/-- `Episode.index` (a field of the Episode alias) as a field descriptor. -/
def episode_index_field : Field :=
  { name := "index", modelClass := .episode, fieldType := .plain }

/-- The query construction inside `SeasonLibrary.__call__` (library.py
lines 486-519): id and index fields are prepended, the where filter lists
the type predicate first. -/
def seasonQuery (sections : List Nat) (fields : List Field) (account : Option Nat)
    (whereCl : List Pred) : Except PyErr Query :=
  libraryQuery (metadataItem_id :: metadataItem_index :: fields) account
    (whereCl ++ [Pred.typeEq MetadataItemType_Season, Pred.sectionIn sections])

/-- `EpisodeLibrary.query` (library.py lines 575-603). -/
def episodeQuery (sections : List Nat) (fields : List Field) (account : Option Nat)
    (whereCl : List Pred) : Except PyErr Query :=
  libraryQuery fields account
    (whereCl ++ [Pred.sectionIn sections, Pred.typeEq MetadataItemType_Episode])

/-- Outcome of one `result.iterate()` call on the raw cursor: a row, a
UnicodeDecodeError (with its encoding and reason), or any other exception.
The end of the input list is the cursor raising StopIteration, which ends
the generator. -/
inductive Fetch where
  | ok (row : List Value)
  | unicodeErr (encoding reason : String)
  | err (e : PyErr)
deriving DecidableEq, Repr

/-- The structured warning `_tuple_iterator` logs for a skipped row. -/
inductive CursorLog where
  | unicodeWarn (encoding reason : String)
deriving DecidableEq, Repr

/-- `LibraryBase._tuple_iterator` (library.py lines 69-86): yield rows,
skip (with a warning) fetches that fail with UnicodeDecodeError, and let
any other exception propagate, aborting the iteration. -/
def tupleIterator : List Fetch → List (List Value) × List CursorLog × Option PyErr
  | [] => ([], [], Option.none)
  | .ok r :: rest =>
    let out := tupleIterator rest
    (r :: out.1, out.2.1, out.2.2)
  | .unicodeErr enc reason :: rest =>
    let out := tupleIterator rest
    (out.1, .unicodeWarn enc reason :: out.2.1, out.2.2)
  | .err e :: _ => ([], [], some e)

/-- Reference function: the rows of the fetch sequence that decode
cleanly. -/
def okRows (l : List Fetch) : List (List Value) :=
  l.filterMap fun f =>
    match f with
    | .ok r => some r
    | _ => Option.none

/-- Reference function: the warnings expected for the unicode-failed
fetches of the sequence. -/
def unicodeWarns (l : List Fetch) : List CursorLog :=
  l.filterMap fun f =>
    match f with
    | .unicodeErr enc reason => some (.unicodeWarn enc reason)
    | _ => Option.none

/-- A key of the memoization dict in the `mapped` iterators.  The dict is
keyed by item ids (Python ints); `builtinId` stands for the Python builtin
function `id`, the object the defective membership tests in
`shows_iterator` / `episodes_iterator` look up (the local variables there
are named `sh_id` and so on, so the bare name `id` resolves to the
builtin). -/
inductive GKey where
  | intKey (n : Nat)
  | builtinId
deriving DecidableEq, Repr

/-- The guid-memoization state of one `mapped` call: the `guids` dict plus
an instrumentation trace of the item ids for which the identifier-parsing
collaborator (`Guid.parse(..., strict=True)`) was invoked. -/
structure GuidSt where
  guids : List (GKey × String)
  calls : List Nat
deriving DecidableEq, Repr

/-- One row of `MovieLibrary.mapped`, after `_parse(fields, row, offset=3)`
unpacked it as id, guid, tag, movie (library.py line 357). -/
structure MovRow where
  id : Nat
  guid : String
  tag : Option String
  movie : Record
deriving DecidableEq, Repr

/-- Python truthiness of a nullable string (the `if tag:` test). -/
def pyTruthyStr : Option String → Bool
  | Option.none => false
  | some t => t ≠ ""

/-- One step of `movies_iterator` (library.py lines 355-369): memoize the
parsed guid per item id (the local `id` here really is the row id), prefer
the external tag over the native guid, and yield the triple. -/
def moviesStep (gparse : String → String) (parseGuid : Bool) (st : GuidSt) (r : MovRow) :
    GuidSt × (Nat × String × Record) :=
  if parseGuid then
    let st2 :=
      if (dictGet st.guids (GKey.intKey r.id)).isNone then
        let parsed :=
          match r.tag with
          | some t => if t = "" then gparse r.guid else gparse t
          | Option.none => gparse r.guid
        { guids := dictSet st.guids (GKey.intKey r.id) parsed,
          calls := st.calls ++ [r.id] }
      else st
    -- guid = guids[id]; the key is present: either it was just assigned or
    -- the memo test found it, so the default is unreachable.
    let g := (dictGet st2.guids (GKey.intKey r.id)).getD r.guid
    (st2, (r.id, g, r.movie))
  else (st, (r.id, r.guid, r.movie))

/-- `movies_iterator` run to exhaustion over the parsed rows. -/
def moviesIterator (gparse : String → String) (parseGuid : Bool) (rows : List MovRow) :
    GuidSt × List (Nat × String × Record) :=
  rows.foldl
    (fun acc r =>
      let out := moviesStep gparse parseGuid acc.1 r
      (out.1, acc.2 ++ [out.2]))
    ({ guids := [], calls := [] }, [])

/-- One flat episode row of `EpisodeLibrary.mapped`, as unpacked on
library.py line 643. -/
structure EpRow where
  shId : Nat
  seId : Nat
  epId : Nat
  epIndex : Value
  episode : Record
deriving DecidableEq, Repr

/-- The debug-level log lines of `episodes_iterator`. -/
inductive EpLog where
  | showMissing (id : Nat)
  | seasonMissing (id : Nat)
deriving DecidableEq, Repr

/-- One output entry of `episodes_iterator` (library.py line 683). -/
structure MappedEntry where
  ids : Nat × Nat × Nat
  guid : String
  num : Value × Value
  showRec : Record
  seasonRec : Record
  episodeRec : Record
deriving DecidableEq, Repr

/-- The collaborators of one `EpisodeLibrary.mapped` call: the strict
identifier parser (total here; its own failures are outside these claims)
and the optional matcher capability
`process_episode(ep_id, (season_num, ep_index), file) -> (season_num, episode_nums)`. -/
structure EpCfg where
  gparse : String → String
  parseGuid : Bool
  matcher : Option (Nat → Value × Value → String → Value × List Value)

/-- Read season["index"] from a season record (well-formed season records
always carry it; the fallback models nothing reachable). -/
def recIndex (season : Record) : Value :=
  match dictGet season "index" with
  | some (RVal.v x) => x
  | _ => Value.none

/-- Read episode["part"]["file"] from an episode record (always present in
rows built by `mapped_episodes`; the fallback models nothing reachable). -/
def recFile (episode : Record) : String :=
  match dictGet episode "part" with
  | some (RVal.d part) =>
    (match dictGet part "file" with
     | some (Value.str s) => s
     | _ => "")
  | _ => ""

/-- One step of `episodes_iterator` (library.py lines 642-683): resolve the
parents, skipping with a debug log when either is missing; optionally
parse the show guid — the memo test is `if id not in guids` where `id` is
the Python builtin, never a key of the dict, so it always succeeds and the
parser runs for every surviving row; then run the matcher (or pass the raw
pair through) and emit one entry per resolved episode number. -/
def epStep (cfg : EpCfg) (shows : List (Nat × (String × Record)))
    (seasons : List (Nat × Record)) (st : GuidSt) (r : EpRow) :
    GuidSt × List MappedEntry × List EpLog :=
  match dictGet shows r.shId with
  | Option.none => (st, [], [.showMissing r.shId])
  | some (guid0, showRec) =>
    match dictGet seasons r.seId with
    | Option.none => (st, [], [.seasonMissing r.seId])
    | some season =>
      let stG :=
        if cfg.parseGuid then
          if (dictGet st.guids GKey.builtinId).isNone then
            { guids := dictSet st.guids (GKey.intKey r.shId) (cfg.gparse guid0),
              calls := st.calls ++ [r.shId] }
          else st
        else st
      -- guid = guids[sh_id] (inside the parse_guid branch); the key was
      -- assigned on the previous line, so the default is unreachable.
      let guid :=
        if cfg.parseGuid then (dictGet stG.guids (GKey.intKey r.shId)).getD guid0
        else guid0
      let resolved :=
        match cfg.matcher with
        | Option.none => (recIndex season, [r.epIndex])
        | some mf => mf r.epId (recIndex season, r.epIndex) (recFile r.episode)
      (stG,
       resolved.2.map (fun en =>
         { ids := (r.shId, r.seId, r.epId), guid := guid, num := (resolved.1, en),
           showRec := showRec, seasonRec := season, episodeRec := r.episode }),
       [])

/-- `episodes_iterator` run to exhaustion over the flat episode rows. -/
def episodesIterator (cfg : EpCfg) (shows : List (Nat × (String × Record)))
    (seasons : List (Nat × Record)) (rows : List EpRow) (st0 : GuidSt) :
    GuidSt × List MappedEntry × List EpLog :=
  rows.foldl
    (fun acc r =>
      let out := epStep cfg shows seasons acc.1 r
      (out.1, acc.2.1 ++ out.2.1, acc.2.2 ++ out.2.2))
    (st0, [], [])

/-- One row of the `metadata_items` table, restricted to the columns
`EpisodeLibrary.count_items` touches. -/
structure MetadataRow where
  librarySection : Nat
  metadataType : Nat
  mediaItemCount : Int
deriving DecidableEq, Repr

/-- Modelled from the spec: the SQL SUM aggregate computed by the storage
collaborator — NULL (none) over the empty set, the arithmetic sum
otherwise; peewee `scalar()` passes the value through unconverted. -/
def sqlSum : List Int → Option Int
  | [] => Option.none
  | x :: xs => some ((x :: xs).foldl (· + ·) 0)

/-- The where filter of `EpisodeLibrary.count_items`: section membership
and episode metadata type. -/
def episodeMatches (sectionIds : List Nat) (r : MetadataRow) : Bool :=
  sectionIds.contains r.librarySection && r.metadataType == MetadataItemType_Episode

/-- `EpisodeLibrary.count_items` (library.py lines 560-573) evaluated
against a table: `SELECT SUM(media_item_count)` over the matching rows,
returned as the raw scalar. -/
def count_items (db : List MetadataRow) (sections : List Nat) : Option Int :=
  sqlSum ((db.filter (episodeMatches sections)).map (fun r => r.mediaItemCount))

/- Helper lemmas -/

@[simp]
theorem bind_ok_pyerr {α β : Type} (a : α) (g : α → Except PyErr β) :
    (Except.ok a : Except PyErr α) >>= g = g a := rfl

@[simp]
theorem bind_error_pyerr {α β : Type} (e : PyErr) (g : α → Except PyErr β) :
    (Except.error e : Except PyErr α) >>= g = (Except.error e : Except PyErr β) := rfl

theorem dictGet_dictSet {κ α : Type} [DecidableEq κ] (d : List (κ × α)) (k : κ) (v : α)
    (k2 : κ) : dictGet (dictSet d k v) k2 = if k = k2 then some v else dictGet d k2 := by
  induction d with
  | nil => simp [dictGet, dictSet]
  | cons p rest ih =>
    obtain ⟨pk, pv⟩ := p
    by_cases h1 : pk = k
    · subst h1
      by_cases h2 : pk = k2 <;> simp [dictGet, dictSet, h2]
    · by_cases h2 : pk = k2
      · subst h2
        have hk2 : ¬(k = pk) := fun he => h1 he.symm
        simp [dictGet, dictSet, h1, hk2]
      · simp [dictGet, dictSet, h1, h2, ih]

/-- Only the settings model is named MetadataItemSettings. -/
theorem modelName_settings (m : Model) :
    modelName m = "MetadataItemSettings" ↔ m = Model.metadataItemSettings := by
  cases m <;> simp [modelName]

theorem parseField_isOk (sysOff : Int) (f : Field) (v : Value) :
    ∃ w, parseField sysOff true f v = .ok w := by
  unfold parseField
  by_cases h1 : f.fieldType = .dateTime
  · rw [if_pos h1]
    by_cases h2 : pyFalsy v = true
    · rw [if_pos h2]; exact ⟨_, rfl⟩
    · rw [if_neg h2]
      cases v <;> simp
  · rw [if_neg h1]; exact ⟨_, rfl⟩

/-- Auxiliary classification of models for the decode lemmas. -/
def primaryModel : Model → Bool
  | .metadataItem => true
  | .episode => true
  | _ => false

def recognizedModel (m : Model) : Bool := primaryModel m || (MODEL_KEYS m).isSome

/-- The three nesting keys of `MODEL_KEYS`. -/
def modelKeyNames : List String := ["media", "part", "settings"]

/-- A field whose owning model the decoder recognizes, and whose name does
not collide with a nesting key when it is a top-level field. -/
def safeField (f : Field) : Prop :=
  recognizedModel f.modelClass = true ∧
  (primaryModel f.modelClass = true → f.name ∉ modelKeyNames)

instance (f : Field) : Decidable (safeField f) := by
  unfold safeField
  infer_instance

/-- No nesting key of the record is bound to a plain value. -/
def goodRecord (item : Record) : Prop :=
  ∀ k, k ∈ modelKeyNames → ∀ x, dictGet item k = some x → ∃ m2, x = RVal.d m2

theorem storeField_primary (f : Field) (v : Value) (item : Record)
    (h : primaryModel f.modelClass = true) :
    storeField f v item = .ok (dictSet item f.name (RVal.v v)) := by
  have h2 : f.modelClass = .metadataItem ∨ f.modelClass = .episode := by
    cases hm : f.modelClass <;> rw [hm] at h <;> simp_all [primaryModel]
  unfold storeField
  rw [if_pos h2]

theorem storeField_keyed (f : Field) (v : Value) (item : Record) (key : String)
    (m2 : List (String × Value)) (hk : MODEL_KEYS f.modelClass = some key)
    (hget : dictGet item key = some (RVal.d m2)) :
    storeField f v item = .ok (dictSet item key (RVal.d (dictSet m2 f.name v))) := by
  have hnp : ¬(f.modelClass = .metadataItem ∨ f.modelClass = .episode) := by
    rintro (h | h) <;> rw [h] at hk <;> cases hk
  unfold storeField
  rw [if_neg hnp, hk]
  simp [hget]

theorem storeField_keyed_new (f : Field) (v : Value) (item : Record) (key : String)
    (hk : MODEL_KEYS f.modelClass = some key) (hget : dictGet item key = Option.none) :
    storeField f v item = .ok (dictSet (dictSet item key (RVal.d [])) key (RVal.d [(f.name, v)])) := by
  have hnp : ¬(f.modelClass = .metadataItem ∨ f.modelClass = .episode) := by
    rintro (h | h) <;> rw [h] at hk <;> cases hk
  unfold storeField
  rw [if_neg hnp, hk]
  simp [hget, dictGet_dictSet, dictSet]

theorem storeField_unknown (f : Field) (v : Value) (item : Record)
    (h : recognizedModel f.modelClass = false) :
    storeField f v item = .error (.valueUnknownField f.name f.modelClass) := by
  have h1 : primaryModel f.modelClass = false := by
    cases hp : primaryModel f.modelClass
    · rfl
    · rw [recognizedModel, hp] at h; simp at h
  have h2 : MODEL_KEYS f.modelClass = Option.none := by
    cases hk : MODEL_KEYS f.modelClass
    · rfl
    · rw [recognizedModel, hk] at h; simp at h
  have hnp : ¬(f.modelClass = .metadataItem ∨ f.modelClass = .episode) := by
    rintro (hh | hh) <;> rw [hh] at h1 <;> simp [primaryModel] at h1
  unfold storeField
  rw [if_neg hnp, h2]

theorem storeField_safe_ok (f : Field) (v : Value) (item : Record)
    (hf : safeField f) (hg : goodRecord item) :
    ∃ item2, storeField f v item = .ok item2 ∧ goodRecord item2 := by
  obtain ⟨hrec, hname⟩ := hf
  by_cases hp : primaryModel f.modelClass = true
  · refine ⟨_, storeField_primary f v item hp, ?_⟩
    intro k hk x hx
    rw [dictGet_dictSet] at hx
    have hne : f.name ≠ k := fun he => hname hp (he ▸ hk)
    rw [if_neg hne] at hx
    exact hg k hk x hx
  · have hkeys : ∃ key, MODEL_KEYS f.modelClass = some key := by
      cases hmk : MODEL_KEYS f.modelClass
      · exfalso
        rw [recognizedModel, hmk] at hrec
        simp at hrec
        exact hp hrec
      · exact ⟨_, rfl⟩
    obtain ⟨key, hkey⟩ := hkeys
    have hkmem : key ∈ modelKeyNames := by
      cases hm : f.modelClass <;> rw [hm] at hkey
      case mediaItem =>
        have h2 : some "media" = some key := hkey
        injection h2 with h
        subst h
        decide
      case mediaPart =>
        have h2 : some "part" = some key := hkey
        injection h2 with h
        subst h
        decide
      case metadataItemSettings =>
        have h2 : some "settings" = some key := hkey
        injection h2 with h
        subst h
        decide
      all_goals exact Option.noConfusion hkey
    cases hget : dictGet item key with
    | none =>
      refine ⟨_, storeField_keyed_new f v item key hkey hget, ?_⟩
      intro k hk x hx
      rw [dictGet_dictSet] at hx
      by_cases he : key = k
      · rw [if_pos he] at hx
        injection hx with hx
        exact ⟨_, hx.symm⟩
      · rw [if_neg he, dictGet_dictSet, if_neg he] at hx
        exact hg k hk x hx
    | some x0 =>
      obtain ⟨m2, hm2⟩ := hg key hkmem x0 hget
      subst hm2
      refine ⟨_, storeField_keyed f v item key m2 hkey hget, ?_⟩
      intro k hk x hx
      rw [dictGet_dictSet] at hx
      by_cases he : key = k
      · rw [if_pos he] at hx
        injection hx with hx
        exact ⟨_, hx.symm⟩
      · rw [if_neg he] at hx
        exact hg k hk x hx

theorem parseFrom_safe_ok (sysOff : Int) :
    ∀ (fs : List Field) (vs : List Value) (item : Record),
      (∀ f ∈ fs, safeField f) → fs.length ≤ vs.length → goodRecord item →
      ∃ item2, parseFrom sysOff true fs vs item = .ok item2 ∧ goodRecord item2 := by
  intro fs
  induction fs with
  | nil => intro vs item _ _ hg; exact ⟨item, rfl, hg⟩
  | cons f fs2 ih =>
    intro vs item hsafe hlen hg
    cases vs with
    | nil => simp at hlen
    | cons v vs2 =>
      obtain ⟨w, hw⟩ := parseField_isOk sysOff f v
      obtain ⟨item2, hst, hg2⟩ := storeField_safe_ok f w item (hsafe f (List.mem_cons_self _ _)) hg
      obtain ⟨item3, hrec, hg3⟩ :=
        ih vs2 item2 (fun g hgm => hsafe g (List.mem_cons_of_mem _ hgm))
          (Nat.le_of_succ_le_succ hlen) hg2
      refine ⟨item3, ?_, hg3⟩
      simp [parseFrom, hw, hst, hrec]

theorem parseFrom_append (sysOff : Int) (tzAvail : Bool) :
    ∀ (fs1 : List Field) (vs1 : List Value) (fs2 : List Field) (vs2 : List Value)
      (item : Record),
      fs1.length = vs1.length →
      parseFrom sysOff tzAvail (fs1 ++ fs2) (vs1 ++ vs2) item =
        parseFrom sysOff tzAvail fs1 vs1 item >>=
          fun it => parseFrom sysOff tzAvail fs2 vs2 it := by
  intro fs1
  induction fs1 with
  | nil =>
    intro vs1 fs2 vs2 item hlen
    cases vs1 with
    | nil => simp [parseFrom]
    | cons v vs => simp at hlen
  | cons f fs ih =>
    intro vs1 fs2 vs2 item hlen
    cases vs1 with
    | nil => simp at hlen
    | cons v vs =>
      simp only [List.cons_append, parseFrom]
      cases hpf : parseField sysOff tzAvail f v with
      | error e => simp [hpf]
      | ok w =>
        cases hst : storeField f w item with
        | error e => simp [hpf, hst]
        | ok item2 =>
          have hlen2 : fs.length = vs.length := by simpa using hlen
          simp [hpf, hst, ih vs fs2 vs2 item2 hlen2]

theorem parseRow_first_unknown (sysOff : Int) (fields : List Field) (row : List Value)
    (offset : Nat) (pre : List Field) (fbad : Field) (post : List Field)
    (vpre : List Value) (v : Value) (vrest : List Value)
    (hf : fields.drop offset = pre ++ fbad :: post)
    (hr : row.drop offset = vpre ++ v :: vrest)
    (hlen : vpre.length = pre.length)
    (hsafe : ∀ f ∈ pre, safeField f)
    (hbad : recognizedModel fbad.modelClass = false) :
    parseRow sysOff true fields row offset =
      .error (.valueUnknownField fbad.name fbad.modelClass) := by
  unfold parseRow
  rw [hf, hr, parseFrom_append sysOff true pre vpre (fbad :: post) (v :: vrest) [] hlen.symm]
  obtain ⟨item2, hok, hg2⟩ :=
    parseFrom_safe_ok sysOff pre vpre [] hsafe (le_of_eq hlen.symm)
      (fun k _ x hx => by cases hx)
  rw [hok]
  obtain ⟨w, hw⟩ := parseField_isOk sysOff fbad v
  simp [parseFrom, hw, storeField_unknown fbad w item2 hbad]

theorem libraryJoin_unknown :
    ∀ (pre : List Model) (q : Query) (account : Option Nat) (exclude : List Model)
      (m : Model) (post : List Model),
      (∀ m2 ∈ pre, m2 = Model.metadataItem ∨ m2 ∈ exclude ∨
        m2 = Model.metadataItemSettings ∨ m2 = Model.mediaItem) →
      m ≠ Model.metadataItem → m ∉ exclude → m ≠ Model.metadataItemSettings →
      m ≠ Model.mediaItem →
      libraryJoin q (pre ++ m :: post) account exclude = .error (.valueUnknownJoin m) := by
  intro pre
  induction pre with
  | nil =>
    intro q account exclude m post _ h1 h2 h3 h4
    simp only [List.nil_append]
    unfold libraryJoin
    rw [if_neg h1, if_neg h2, if_neg h3, if_neg h4]
  | cons p rest ih =>
    intro q account exclude m post hpre h1 h2 h3 h4
    have hp := hpre p (List.mem_cons_self _ _)
    have hrest : ∀ m2 ∈ rest, m2 = Model.metadataItem ∨ m2 ∈ exclude ∨
        m2 = Model.metadataItemSettings ∨ m2 = Model.mediaItem :=
      fun m2 hm2 => hpre m2 (List.mem_cons_of_mem _ hm2)
    simp only [List.cons_append]
    unfold libraryJoin
    by_cases c1 : p = Model.metadataItem
    · rw [if_pos c1]; exact ih q account exclude m post hrest h1 h2 h3 h4
    · rw [if_neg c1]
      by_cases c2 : p ∈ exclude
      · rw [if_pos c2]; exact ih q account exclude m post hrest h1 h2 h3 h4
      · rw [if_neg c2]
        by_cases c3 : p = Model.metadataItemSettings
        · rw [if_pos c3]
          exact ih (joinSettingsQ q account) account exclude m post hrest h1 h2 h3 h4
        · rw [if_neg c3]
          by_cases c4 : p = Model.mediaItem
          · rw [if_pos c4]
            exact ih (joinMediaQ q) account exclude m post hrest h1 h2 h3 h4
          · exfalso
            rcases hp with h | h | h | h
            · exact c1 h
            · exact c2 h
            · exact c3 h
            · exact c4 h

theorem joinModelsLoop_no_settings_err (a : Nat) (exclude : List Model) :
    ∀ (fields : List Field) (seen : List String) (q : Query) (e : PyErr),
      joinModelsLoop (some a) exclude fields seen q = Except.error e →
      e ≠ PyErr.valueSettingsAccount := by
  intro fields
  induction fields with
  | nil => intro seen q e h; cases h
  | cons f fs ih =>
    intro seen q e h
    unfold joinModelsLoop at h
    by_cases c1 : modelName f.modelClass ∈ seen
    · rw [if_pos c1] at h
      exact ih seen q e h
    · rw [if_neg c1] at h
      rw [if_neg (by simp)] at h
      by_cases c2 : f.modelClass = Model.metadataItem
      · rw [if_pos c2] at h
        exact ih _ _ e h
      · rw [if_neg c2] at h
        by_cases c3 : f.modelClass ∈ exclude
        · rw [if_pos c3] at h
          exact ih _ _ e h
        · rw [if_neg c3] at h
          by_cases c4 : f.modelClass = Model.metadataItemSettings
          · rw [if_pos c4] at h
            exact ih _ _ e h
          · rw [if_neg c4] at h
            by_cases c5 : f.modelClass = Model.mediaItem
            · rw [if_pos c5] at h
              exact ih _ _ e h
            · rw [if_neg c5] at h
              injection h with h
              rw [← h]
              intro hcontra
              cases hcontra

theorem joinModelsLoop_settings_err (exclude : List Model) :
    ∀ (fields : List Field) (seen : List String) (q : Query),
      "MetadataItemSettings" ∉ seen →
      (∃ f ∈ fields, f.modelClass = Model.metadataItemSettings) →
      ∃ e, joinModelsLoop Option.none exclude fields seen q = Except.error e := by
  intro fields
  induction fields with
  | nil =>
    intro seen q _ hex
    obtain ⟨f, hf, _⟩ := hex
    cases hf
  | cons f fs ih =>
    intro seen q hseen hex
    by_cases c1 : modelName f.modelClass ∈ seen
    · have hfne : f.modelClass ≠ Model.metadataItemSettings := by
        intro hc
        rw [hc] at c1
        exact hseen c1
      obtain ⟨g, hg, hgs⟩ := hex
      have hg2 : g ∈ fs := by
        rcases List.mem_cons.mp hg with rfl | hg2
        · exact absurd hgs hfne
        · exact hg2
      obtain ⟨e, he⟩ := ih seen q hseen ⟨g, hg2, hgs⟩
      refine ⟨e, ?_⟩
      unfold joinModelsLoop
      rw [if_pos c1]
      exact he
    · by_cases c2 : f.modelClass = Model.metadataItemSettings
      · refine ⟨PyErr.valueSettingsAccount, ?_⟩
        unfold joinModelsLoop
        rw [if_neg c1, if_pos ⟨c2, rfl⟩]
      · obtain ⟨g, hg, hgs⟩ := hex
        have hg2 : g ∈ fs := by
          rcases List.mem_cons.mp hg with rfl | hg2
          · exact absurd hgs c2
          · exact hg2
        have hseen2 : "MetadataItemSettings" ∉ modelName f.modelClass :: seen := by
          intro hmem
          rcases List.mem_cons.mp hmem with heq | hmem2
          · exact c2 ((modelName_settings f.modelClass).mp heq.symm)
          · exact hseen hmem2
        by_cases c3 : f.modelClass = Model.metadataItem
        · obtain ⟨e, he⟩ := ih _ q hseen2 ⟨g, hg2, hgs⟩
          refine ⟨e, ?_⟩
          unfold joinModelsLoop
          rw [if_neg c1, if_neg (fun hand => c2 hand.1), if_pos c3]
          exact he
        · by_cases c4 : f.modelClass ∈ exclude
          · obtain ⟨e, he⟩ := ih _ q hseen2 ⟨g, hg2, hgs⟩
            refine ⟨e, ?_⟩
            unfold joinModelsLoop
            rw [if_neg c1, if_neg (fun hand => c2 hand.1), if_neg c3, if_pos c4]
            exact he
          · by_cases c5 : f.modelClass = Model.mediaItem
            · obtain ⟨e, he⟩ := ih _ (joinMediaQ q) hseen2 ⟨g, hg2, hgs⟩
              refine ⟨e, ?_⟩
              unfold joinModelsLoop
              rw [if_neg c1, if_neg (fun hand => c2 hand.1), if_neg c3, if_neg c4,
                if_neg c2, if_pos c5]
              exact he
            · refine ⟨PyErr.valueUnknownJoin f.modelClass, ?_⟩
              unfold joinModelsLoop
              rw [if_neg c1, if_neg (fun hand => c2 hand.1), if_neg c3, if_neg c4,
                if_neg c2, if_neg c5]

theorem libraryQuery_error_iff (fields : List Field) (account : Option Nat)
    (preds : List Pred) (e : PyErr) :
    libraryQuery fields account preds = Except.error e ↔
      joinModelsLoop account [] fields []
        { selectFields := fields, joins := [], wherePreds := [] } = Except.error e := by
  unfold libraryQuery
  cases h : joinModelsLoop account [] fields []
      { selectFields := fields, joins := [], wherePreds := [] } with
  | error e2 => simp [h]
  | ok q => simp [h]

theorem tupleIterator_clean :
    ∀ l : List Fetch, (∀ e, Fetch.err e ∉ l) →
      tupleIterator l = (okRows l, unicodeWarns l, Option.none) := by
  intro l
  induction l with
  | nil => intro _; rfl
  | cons f rest ih =>
    intro h
    have hrest : ∀ e, Fetch.err e ∉ rest := by
      intro e he
      exact h e (List.mem_cons_of_mem _ he)
    cases f with
    | ok r =>
      simp [tupleIterator, okRows, unicodeWarns, List.filterMap_cons, ih hrest]
    | unicodeErr enc reason =>
      simp [tupleIterator, okRows, unicodeWarns, List.filterMap_cons, ih hrest]
    | err e =>
      exact absurd (List.mem_cons_self _ _) (h e)

theorem tupleIterator_abort :
    ∀ (pre : List Fetch) (e : PyErr) (post : List Fetch),
      (∀ e2, Fetch.err e2 ∉ pre) →
      tupleIterator (pre ++ Fetch.err e :: post) = (okRows pre, unicodeWarns pre, some e) := by
  intro pre
  induction pre with
  | nil => intro e post _; rfl
  | cons f rest ih =>
    intro e post h
    have hrest : ∀ e2, Fetch.err e2 ∉ rest := by
      intro e2 he
      exact h e2 (List.mem_cons_of_mem _ he)
    cases f with
    | ok r =>
      simp [tupleIterator, okRows, unicodeWarns, List.filterMap_cons, ih e post hrest]
    | unicodeErr enc reason =>
      simp [tupleIterator, okRows, unicodeWarns, List.filterMap_cons, ih e post hrest]
    | err e2 =>
      exact absurd (List.mem_cons_self _ _) (h e2)

/-- Reference function following the spec words for model grouping, after
amendment: keep, per distinct model name, the first-seen model, in
first-seen order, relative to an already-seen name set. -/
def firstSeenByName : List Model → List String → List Model
  | [], _ => []
  | m :: ms, seen =>
    if modelName m ∈ seen then firstSeenByName ms seen
    else m :: firstSeenByName ms (modelName m :: seen)

theorem modelsLoop_eq_firstSeen (a : Nat) :
    ∀ (fields : List Field) (seen : List String),
      modelsLoop (some a) fields seen =
        .ok (firstSeenByName (fields.map Field.modelClass) seen) := by
  intro fields
  induction fields with
  | nil => intro seen; rfl
  | cons f fs ih =>
    intro seen
    by_cases h : modelName f.modelClass ∈ seen
    · simp only [modelsLoop, firstSeenByName, List.map_cons]
      rw [if_pos h, if_pos h]
      exact ih seen
    · simp only [modelsLoop, firstSeenByName, List.map_cons]
      rw [if_neg h, if_neg h, if_neg (by simp), ih (modelName f.modelClass :: seen)]
      rfl

theorem firstSeen_nodup_aux :
    ∀ (ms : List Model) (seen : List String),
      ((firstSeenByName ms seen).map modelName).Nodup ∧
      (∀ s ∈ (firstSeenByName ms seen).map modelName, s ∉ seen) := by
  intro ms
  induction ms with
  | nil =>
    intro seen
    constructor
    · simp [firstSeenByName]
    · simp [firstSeenByName]
  | cons m rest ih =>
    intro seen
    by_cases h : modelName m ∈ seen
    · simp only [firstSeenByName, if_pos h]
      exact ih seen
    · simp only [firstSeenByName, if_neg h, List.map_cons]
      obtain ⟨hnd, hs⟩ := ih (modelName m :: seen)
      constructor
      · refine List.nodup_cons.mpr ⟨?_, hnd⟩
        intro hmem
        exact hs _ hmem (List.mem_cons_self _ _)
      · intro s hsmem hseen
        rcases List.mem_cons.mp hsmem with rfl | hsm
        · exact h hseen
        · exact hs s hsm (List.mem_cons_of_mem _ hseen)

theorem firstSeen_covers :
    ∀ (ms : List Model) (seen : List String) (m : Model), m ∈ ms →
      modelName m ∈ seen ∨ modelName m ∈ (firstSeenByName ms seen).map modelName := by
  intro ms
  induction ms with
  | nil => intro seen m hm; cases hm
  | cons m0 rest ih =>
    intro seen m hm
    by_cases h : modelName m0 ∈ seen
    · simp only [firstSeenByName, if_pos h]
      rcases List.mem_cons.mp hm with rfl | hm2
      · exact Or.inl h
      · exact ih seen m hm2
    · simp only [firstSeenByName, if_neg h, List.map_cons]
      rcases List.mem_cons.mp hm with rfl | hm2
      · exact Or.inr (List.mem_cons_self _ _)
      · rcases ih (modelName m0 :: seen) m hm2 with hseen | hres
        · rcases List.mem_cons.mp hseen with heq | hseen2
          · exact Or.inr (by rw [heq]; exact List.mem_cons_self _ _)
          · exact Or.inl hseen2
        · exact Or.inr (List.mem_cons_of_mem _ hres)

theorem firstSeen_sublist :
    ∀ (ms : List Model) (seen : List String), (firstSeenByName ms seen).Sublist ms := by
  intro ms
  induction ms with
  | nil => intro seen; simp [firstSeenByName]
  | cons m0 rest ih =>
    intro seen
    by_cases h : modelName m0 ∈ seen
    · simp only [firstSeenByName, if_pos h]
      exact (ih seen).cons _
    · simp only [firstSeenByName, if_neg h]
      exact (ih _).cons₂ _

instance exceptDecEq {ε α : Type} [DecidableEq ε] [DecidableEq α] :
    DecidableEq (Except ε α) := fun x y =>
  match x, y with
  | .ok a, .ok b =>
    if h : a = b then isTrue (by rw [h])
    else isFalse (fun hc => h (Except.ok.inj hc))
  | .error e, .error e2 =>
    if h : e = e2 then isTrue (by rw [h])
    else isFalse (fun hc => h (Except.error.inj hc))
  | .ok _, .error _ => isFalse (fun hc => Except.noConfusion hc)
  | .error _, .ok _ => isFalse (fun hc => Except.noConfusion hc)

/- Claim theorems -/

/-- C1: for every field list containing a settings-sub-entity field, every
entity query builder (movie, show, season, episode) with `account = None`
fails during query construction — before any row is fetched, since rows
are only produced by the later `tupleIterator` stage run on a successfully
built `Query` value — and when an account is supplied, the
settings-require-account configuration error is never raised. -/
theorem query_builders_settings_account :
    ∀ B ∈ [movieQuery, showQuery, seasonQuery, episodeQuery],
      ∀ (sections : List Nat) (fields : List Field) (whereCl : List Pred),
        ((∃ f ∈ fields, f.modelClass = Model.metadataItemSettings) →
          ∃ e, B sections fields Option.none whereCl = Except.error e) ∧
        (∀ (a : Nat) (e : PyErr),
          B sections fields (some a) whereCl = Except.error e →
          e ≠ PyErr.valueSettingsAccount) := by
  have hgen : ∀ (fields2 : List Field) (preds : List Pred),
      ((∃ f ∈ fields2, f.modelClass = Model.metadataItemSettings) →
        ∃ e, libraryQuery fields2 Option.none preds = Except.error e) ∧
      (∀ (a : Nat) (e : PyErr),
        libraryQuery fields2 (some a) preds = Except.error e →
        e ≠ PyErr.valueSettingsAccount) := by
    intro fields2 preds
    constructor
    · intro hex
      obtain ⟨e, he⟩ := joinModelsLoop_settings_err [] fields2 []
        { selectFields := fields2, joins := [], wherePreds := [] } (by simp) hex
      exact ⟨e, (libraryQuery_error_iff fields2 Option.none preds e).mpr he⟩
    · intro a e he
      exact joinModelsLoop_no_settings_err a [] fields2 [] _ e
        ((libraryQuery_error_iff fields2 (some a) preds e).mp he)
  intro B hB sections fields whereCl
  have hB4 : B = movieQuery ∨ B = showQuery ∨ B = seasonQuery ∨ B = episodeQuery := by
    simpa using hB
  rcases hB4 with rfl | rfl | rfl | rfl
  · exact hgen fields _
  · exact hgen fields _
  · -- seasonQuery prepends two MetadataItem fields; a settings field in
    -- `fields` is still present in the extended list.
    obtain ⟨h1, h2⟩ := hgen (metadataItem_id :: metadataItem_index :: fields)
      (whereCl ++ [Pred.typeEq MetadataItemType_Season, Pred.sectionIn sections])
    refine ⟨?_, h2⟩
    intro hex
    obtain ⟨f, hf, hfs⟩ := hex
    exact h1 ⟨f, by simp [hf], hfs⟩
  · exact hgen fields _

/-- C1 witness: a settings field without an account makes `MovieLibrary.query`
fail; with an account, an error that does occur (an unknown-model field) is
not the settings configuration error. -/
theorem query_builders_settings_account_witness :
    (∃ e, movieQuery [1]
        [{ name := "rating", modelClass := Model.metadataItemSettings,
           fieldType := FieldType.plain }] Option.none [] = Except.error e) ∧
    PyErr.valueUnknownJoin Model.tags ≠ PyErr.valueSettingsAccount := by
  constructor
  · exact (query_builders_settings_account movieQuery (by simp) [1]
      [{ name := "rating", modelClass := Model.metadataItemSettings,
         fieldType := FieldType.plain }] []).1
      ⟨{ name := "rating", modelClass := Model.metadataItemSettings,
         fieldType := FieldType.plain }, by simp, rfl⟩
  · exact (query_builders_settings_account movieQuery (by simp) [1]
      [{ name := "tag", modelClass := Model.tags, fieldType := FieldType.plain }] []).2
      2 (PyErr.valueUnknownJoin Model.tags) rfl

/-- C2: whenever the row decoder returns, the return value is exactly the
first `offset` raw row values, unchanged, followed by exactly one decoded
record; moreover for a row of matching length and recognized, key-disjoint
fields (with the timezone collaborator available) decoding succeeds with
that shape and the returned tuple has exactly `offset + 1` cells,
regardless of how many fields map into nested sub-entities. -/
theorem parseRow_offset_invariant :
    (∀ (sysOff : Int) (tzAvail : Bool) (fields : List Field) (row : List Value)
        (offset : Nat) (out : List Cell),
        parseRow sysOff tzAvail fields row offset = .ok out →
        ∃ item, out = (row.take offset).map Cell.raw ++ [Cell.record item]) ∧
    (∀ (sysOff : Int) (fields : List Field) (row : List Value) (offset : Nat),
        offset ≤ fields.length → fields.length ≤ row.length →
        (∀ f ∈ fields.drop offset, safeField f) →
        ∃ item,
          parseRow sysOff true fields row offset =
            .ok ((row.take offset).map Cell.raw ++ [Cell.record item]) ∧
          ((row.take offset).map Cell.raw ++ [Cell.record item]).length = offset + 1) := by
  constructor
  · intro sysOff tzAvail fields row offset out h
    unfold parseRow at h
    cases hp : parseFrom sysOff tzAvail (fields.drop offset) (row.drop offset) [] with
    | error e => rw [hp] at h; cases h
    | ok item =>
      rw [hp] at h
      refine ⟨item, ?_⟩
      have h2 : Except.ok ((row.take offset).map Cell.raw ++ [Cell.record item]) =
          (Except.ok out : Except PyErr (List Cell)) := h
      injection h2 with h2
      exact h2.symm
  · intro sysOff fields row offset hofs hlen hsafe
    have hg : goodRecord ([] : Record) := by
      intro k _ x hx
      cases hx
    have hlen2 : (fields.drop offset).length ≤ (row.drop offset).length := by
      simp only [List.length_drop]
      omega
    obtain ⟨item, hp, _⟩ :=
      parseFrom_safe_ok sysOff (fields.drop offset) (row.drop offset) [] hsafe hlen2 hg
    refine ⟨item, ?_, ?_⟩
    · unfold parseRow
      rw [hp]
      rfl
    · have htake : (row.take offset).length = offset := by
        rw [List.length_take]
        omega
      rw [List.length_append, List.length_map, htake]
      rfl

/-- C2 witness: a two-field row (one primary field, one media-part field)
decoded at offset 1. -/
theorem parseRow_offset_invariant_witness :
    ∃ item,
      parseRow 3600 true
        [metadataItem_id,
         { name := "duration", modelClass := Model.mediaPart, fieldType := FieldType.plain }]
        [Value.int 1, Value.int 5] 1 =
        .ok (([Value.int 1, Value.int 5].take 1).map Cell.raw ++ [Cell.record item]) ∧
      (([Value.int 1, Value.int 5].take 1).map Cell.raw ++ [Cell.record item]).length = 1 + 1 :=
  parseRow_offset_invariant.2 3600
    [metadataItem_id,
     { name := "duration", modelClass := Model.mediaPart, fieldType := FieldType.plain }]
    [Value.int 1, Value.int 5] 1 (by decide) (by decide) (by decide)

/-- A settings datetime field, used to exercise `parseField`. -/
def settings_last_viewed_at : Field :=
  { name := "last_viewed_at", modelClass := .metadataItemSettings, fieldType := .dateTime }

/-- C3: per-field conversion for datetime fields.  With the timezone
collaborator available (offset 3600 here): an integer is read as epoch
seconds and lands at UTC; an aware datetime passes through unchanged; a
naive datetime is localized then converted to UTC; null and falsy values
give None.  Without the collaborator a naive datetime passes through — but
an integer raw value does NOT pass through: the source localizes it before
the availability guard, so it fails with AttributeError, contradicting the
claim (code bug at the failing input in the last conjunct). -/
theorem parseField_datetime_eval :
    parseField 3600 true settings_last_viewed_at (Value.int 1500000000) =
      .ok (Value.dtz 0 1500000000) ∧
    parseField 3600 true settings_last_viewed_at (Value.dtz 7200 99) =
      .ok (Value.dtz 7200 99) ∧
    parseField 3600 true settings_last_viewed_at (Value.dt 1000) =
      .ok (Value.dtz 0 (-2600)) ∧
    parseField 3600 true settings_last_viewed_at Value.none = .ok Value.none ∧
    parseField 3600 false settings_last_viewed_at (Value.int 0) = .ok Value.none ∧
    parseField 3600 false settings_last_viewed_at (Value.dt 1000) = .ok (Value.dt 1000) ∧
    parseField 3600 false settings_last_viewed_at (Value.int 1500000000) =
      .error PyErr.attributeError := by
  refine ⟨?_, rfl, ?_, rfl, rfl, rfl, rfl⟩ <;> decide

/-- C4: decode-time grouping and fatality.  Primary-entity fields map to
top-level record keys; recognized sub-entity fields map into the nested
dict at their `MODEL_KEYS` key; a field owned by any other model makes the
decoder fail with the unknown-model ValueError at the first such field;
and the join planner fails with the unknown-model ValueError for any model
that is neither the primary entity, an excluded model, nor one of the two
joinable sub-entities (settings, media). -/
theorem parse_unknown_model_fatal :
    (∀ (f : Field) (v : Value) (item : Record),
        primaryModel f.modelClass = true →
        storeField f v item = .ok (dictSet item f.name (RVal.v v))) ∧
    (∀ (f : Field) (v : Value) (item : Record) (key : String)
        (m2 : List (String × Value)),
        MODEL_KEYS f.modelClass = some key → dictGet item key = some (RVal.d m2) →
        storeField f v item = .ok (dictSet item key (RVal.d (dictSet m2 f.name v)))) ∧
    (∀ (sysOff : Int) (fields : List Field) (row : List Value) (offset : Nat)
        (pre : List Field) (fbad : Field) (post : List Field)
        (vpre : List Value) (v : Value) (vrest : List Value),
        fields.drop offset = pre ++ fbad :: post →
        row.drop offset = vpre ++ v :: vrest →
        vpre.length = pre.length →
        (∀ f ∈ pre, safeField f) →
        recognizedModel fbad.modelClass = false →
        parseRow sysOff true fields row offset =
          .error (.valueUnknownField fbad.name fbad.modelClass)) ∧
    (∀ (q : Query) (account : Option Nat) (exclude : List Model)
        (pre : List Model) (m : Model) (post : List Model),
        (∀ m2 ∈ pre, m2 = Model.metadataItem ∨ m2 ∈ exclude ∨
          m2 = Model.metadataItemSettings ∨ m2 = Model.mediaItem) →
        m ≠ Model.metadataItem → m ∉ exclude → m ≠ Model.metadataItemSettings →
        m ≠ Model.mediaItem →
        libraryJoin q (pre ++ m :: post) account exclude =
          .error (.valueUnknownJoin m)) :=
  ⟨storeField_primary, storeField_keyed, parseRow_first_unknown,
   fun q account exclude pre m post hpre h1 h2 h3 h4 =>
     libraryJoin_unknown pre q account exclude m post hpre h1 h2 h3 h4⟩

/-- C4 witness: each conjunct applied at a concrete input — a primary field
stored at top level, a media-part field stored under its nesting key, a
decode aborted at the first tags-owned field, and a join aborted on the
tags model. -/
theorem parse_unknown_model_fatal_witness :
    storeField { name := "title", modelClass := Model.metadataItem, fieldType := FieldType.plain }
        (Value.int 1) [] = .ok [("title", RVal.v (Value.int 1))] ∧
    storeField { name := "file", modelClass := Model.mediaPart, fieldType := FieldType.plain }
        (Value.str "f") [("part", RVal.d [])] =
      .ok [("part", RVal.d [("file", Value.str "f")])] ∧
    parseRow 3600 true
        [metadataItem_id, { name := "tag", modelClass := Model.tags, fieldType := FieldType.plain }]
        [Value.int 1, Value.int 2] 0 = .error (.valueUnknownField "tag" Model.tags) ∧
    libraryJoin { selectFields := [], joins := [], wherePreds := [] }
        [Model.metadataItem, Model.tags] Option.none [] =
      .error (.valueUnknownJoin Model.tags) := by
  refine ⟨?_, ?_, ?_, ?_⟩
  · exact (parse_unknown_model_fatal.1
      { name := "title", modelClass := Model.metadataItem, fieldType := FieldType.plain }
      (Value.int 1) [] rfl).trans (by decide)
  · exact (parse_unknown_model_fatal.2.1
      { name := "file", modelClass := Model.mediaPart, fieldType := FieldType.plain }
      (Value.str "f") [("part", RVal.d [])] "part" [] rfl rfl).trans (by decide)
  · exact parse_unknown_model_fatal.2.2.1 3600
      [metadataItem_id, { name := "tag", modelClass := Model.tags, fieldType := FieldType.plain }]
      [Value.int 1, Value.int 2] 0 [metadataItem_id]
      { name := "tag", modelClass := Model.tags, fieldType := FieldType.plain } []
      [Value.int 1] (Value.int 2) [] rfl rfl rfl (by decide) rfl
  · exact parse_unknown_model_fatal.2.2.2
      { selectFields := [], joins := [], wherePreds := [] } Option.none []
      [Model.metadataItem] Model.tags [] (by decide) (by decide) (by decide)
      (by decide) (by decide)

/-- C5: guid memoization (code bug in the hierarchical path).  In
`MovieLibrary.mapped` the memo works: two rows with the same item id cause
exactly one parser invocation, and the external tag is preferred over the
native guid.  In `episodes_iterator` the memo check tests the Python
builtin `id` — never a key of the dict — so two episode rows sharing show
id 1 cause TWO parser invocations for that id, contradicting the claim of
at-most-one invocation per id. -/
theorem mapped_guid_memoization_eval :
    (moviesIterator (fun s => s) true
      [{ id := 7, guid := "g", tag := Option.none, movie := [] },
       { id := 7, guid := "g", tag := Option.none, movie := [] }]).1.calls = [7] ∧
    (moviesIterator (fun s => s) true
      [{ id := 8, guid := "native", tag := some "externalTag", movie := [] }]).2 =
      [(8, "externalTag", [])] ∧
    (episodesIterator { gparse := fun s => s, parseGuid := true, matcher := Option.none }
      [(1, ("sg", []))] [(2, [("index", RVal.v (Value.int 1))])]
      [{ shId := 1, seId := 2, epId := 3, epIndex := Value.int 5, episode := [] },
       { shId := 1, seId := 2, epId := 4, epIndex := Value.int 6, episode := [] }]
      { guids := [], calls := [] }).1.calls = [1, 1] := by
  refine ⟨rfl, rfl, rfl⟩

/-- C6: for every flat episode row, at any point of the iteration: a row
whose show id is missing from the shows map is skipped with exactly a
debug log and no entries (state unchanged, no error possible — the step is
total); a row whose show resolves but whose season id is missing from the
seasons map is skipped likewise; and a row with both parents present
yields at least one entry whenever the matcher (if any) returns a
non-empty episode-number list. -/
theorem episodes_missing_parent_skip :
    ∀ (cfg : EpCfg) (shows : List (Nat × (String × Record))) (seasons : List (Nat × Record))
      (st : GuidSt) (r : EpRow),
      (dictGet shows r.shId = Option.none →
        epStep cfg shows seasons st r = (st, [], [EpLog.showMissing r.shId])) ∧
      (∀ p, dictGet shows r.shId = some p → dictGet seasons r.seId = Option.none →
        epStep cfg shows seasons st r = (st, [], [EpLog.seasonMissing r.seId])) ∧
      ((∃ p, dictGet shows r.shId = some p) → (∃ s, dictGet seasons r.seId = some s) →
        (∀ mf, cfg.matcher = some mf → ∀ i pr fl, (mf i pr fl).2 ≠ []) →
        (epStep cfg shows seasons st r).2.1 ≠ []) := by
  intro cfg shows seasons st r
  refine ⟨?_, ?_, ?_⟩
  · intro h
    unfold epStep
    rw [h]
  · intro p hs hn
    obtain ⟨g0, sr⟩ := p
    unfold epStep
    rw [hs, hn]
  · rintro ⟨⟨g0, sr⟩, hs⟩ ⟨s0, hn⟩ hmf
    unfold epStep
    rw [hs, hn]
    cases hm : cfg.matcher with
    | none => simp
    | some mf =>
      simp only []
      intro hcontra
      have h2 : (mf r.epId (recIndex s0, r.epIndex) (recFile r.episode)).2 = [] := by
        have := congrArg List.length hcontra
        simp at this
        exact this
      exact hmf mf hm _ _ _ h2

/-- C6 witness: a row with no matching show is skipped with a debug log;
the same row with both parents present (and no matcher) yields output. -/
theorem episodes_missing_parent_skip_witness :
    epStep { gparse := fun s => s, parseGuid := false, matcher := Option.none } [] []
        { guids := [], calls := [] }
        { shId := 1, seId := 2, epId := 3, epIndex := Value.int 5, episode := [] } =
      ({ guids := [], calls := [] }, [], [EpLog.showMissing 1]) ∧
    (epStep { gparse := fun s => s, parseGuid := false, matcher := Option.none }
        [(1, ("g", []))] [(2, [("index", RVal.v (Value.int 1))])]
        { guids := [], calls := [] }
        { shId := 1, seId := 2, epId := 3, epIndex := Value.int 5, episode := [] }).2.1 ≠ [] := by
  constructor
  · exact (episodes_missing_parent_skip _ _ _ _ _).1 rfl
  · exact (episodes_missing_parent_skip _ _ _ _ _).2.2 ⟨("g", []), rfl⟩
      ⟨[("index", RVal.v (Value.int 1))], rfl⟩ (fun mf h => Option.noConfusion h)

/-- The state update of one surviving `episodes_iterator` step (the two
let-bindings of `epStep` made into standalone functions for the proofs). -/
def epFoundState (cfg : EpCfg) (st : GuidSt) (r : EpRow) (g0 : String) : GuidSt :=
  if cfg.parseGuid then
    if (dictGet st.guids GKey.builtinId).isNone then
      { guids := dictSet st.guids (GKey.intKey r.shId) (cfg.gparse g0),
        calls := st.calls ++ [r.shId] }
    else st
  else st

/-- The guid carried by the entries of one surviving step. -/
def epFoundGuid (cfg : EpCfg) (st : GuidSt) (r : EpRow) (g0 : String) : String :=
  if cfg.parseGuid then
    (dictGet (epFoundState cfg st r g0).guids (GKey.intKey r.shId)).getD g0
  else g0

/-- The (season number, episode numbers) pair of one surviving step. -/
def epResolved (cfg : EpCfg) (r : EpRow) (season : Record) : Value × List Value :=
  match cfg.matcher with
  | Option.none => (recIndex season, [r.epIndex])
  | some mf => mf r.epId (recIndex season, r.epIndex) (recFile r.episode)

theorem epStep_found (cfg : EpCfg) (shows : List (Nat × (String × Record)))
    (seasons : List (Nat × Record)) (st : GuidSt) (r : EpRow)
    (g0 : String) (sr season : Record)
    (hs : dictGet shows r.shId = some (g0, sr))
    (hn : dictGet seasons r.seId = some season) :
    epStep cfg shows seasons st r =
      (epFoundState cfg st r g0,
       (epResolved cfg r season).2.map (fun en =>
         { ids := (r.shId, r.seId, r.epId), guid := epFoundGuid cfg st r g0,
           num := ((epResolved cfg r season).1, en), showRec := sr,
           seasonRec := season, episodeRec := r.episode }),
       []) := by
  unfold epStep
  rw [hs, hn]
  rfl

theorem map_num2_entries (ii : Nat × Nat × Nat) (g : String) (sn : Value)
    (sr se er : Record) :
    ∀ l : List Value,
      List.map (fun (e : MappedEntry) => e.num.2)
        (List.map (fun (en : Value) =>
          ({ ids := ii, guid := g, num := (sn, en), showRec := sr,
             seasonRec := se, episodeRec := er } : MappedEntry)) l) = l := by
  intro l
  induction l with
  | nil => rfl
  | cons x xs ih => simpa using ih

/-- C7: matcher fan-out.  For a row with both parents present: when a
matcher is configured and returns `(sn, ens)` for the row, the iterator
emits exactly `ens.length` entries, all carrying the same show/season/
episode identifier triple, the same parent records, the same resolved
season number and pairwise the same guid, with the emitted episode numbers
exactly `ens` in order; when no matcher is configured, exactly one entry
is emitted carrying the raw (season index, episode index) pair. -/
theorem episodes_matcher_fanout :
    ∀ (cfg : EpCfg) (shows : List (Nat × (String × Record)))
      (seasons : List (Nat × Record)) (st : GuidSt) (r : EpRow)
      (g0 : String) (sr season : Record),
      dictGet shows r.shId = some (g0, sr) →
      dictGet seasons r.seId = some season →
      ((∀ (mf : Nat → Value × Value → String → Value × List Value)
          (sn : Value) (ens : List Value),
          cfg.matcher = some mf →
          mf r.epId (recIndex season, r.epIndex) (recFile r.episode) = (sn, ens) →
          (epStep cfg shows seasons st r).2.1.length = ens.length ∧
          (∀ e ∈ (epStep cfg shows seasons st r).2.1,
            e.ids = (r.shId, r.seId, r.epId) ∧ e.showRec = sr ∧
            e.seasonRec = season ∧ e.episodeRec = r.episode ∧ e.num.1 = sn) ∧
          (∀ e1 ∈ (epStep cfg shows seasons st r).2.1,
            ∀ e2 ∈ (epStep cfg shows seasons st r).2.1, e1.guid = e2.guid) ∧
          (epStep cfg shows seasons st r).2.1.map (fun e => e.num.2) = ens) ∧
       (cfg.matcher = Option.none →
          ∃ g, (epStep cfg shows seasons st r).2.1 =
            [{ ids := (r.shId, r.seId, r.epId), guid := g,
               num := (recIndex season, r.epIndex), showRec := sr,
               seasonRec := season, episodeRec := r.episode }])) := by
  intro cfg shows seasons st r g0 sr season hs hn
  constructor
  · intro mf sn ens hm hmf
    rw [epStep_found cfg shows seasons st r g0 sr season hs hn]
    have hres : epResolved cfg r season = (sn, ens) := by
      unfold epResolved
      rw [hm]
      exact hmf
    rw [hres]
    refine ⟨by simp, ?_, ?_, ?_⟩
    · intro e he
      simp only [List.mem_map] at he
      obtain ⟨en, _, rfl⟩ := he
      simp
    · intro e1 he1 e2 he2
      simp only [List.mem_map] at he1 he2
      obtain ⟨en1, _, rfl⟩ := he1
      obtain ⟨en2, _, rfl⟩ := he2
      rfl
    · exact map_num2_entries (r.shId, r.seId, r.epId) (epFoundGuid cfg st r g0) sn
        sr season r.episode ens
  · intro hm
    rw [epStep_found cfg shows seasons st r g0 sr season hs hn]
    have hres : epResolved cfg r season = (recIndex season, [r.epIndex]) := by
      unfold epResolved
      rw [hm]
    rw [hres]
    exact ⟨epFoundGuid cfg st r g0, rfl⟩

/-- C7 witness: a matcher splitting one row into the two episode numbers 7
and 8 produces exactly two entries with those numbers. -/
theorem episodes_matcher_fanout_witness :
    (epStep { gparse := fun s => s, parseGuid := false,
              matcher := some (fun _ _ _ => (Value.int 3, [Value.int 7, Value.int 8])) }
        [(1, ("g", []))] [(2, [("index", RVal.v (Value.int 1))])]
        { guids := [], calls := [] }
        { shId := 1, seId := 2, epId := 3, epIndex := Value.int 5, episode := [] }).2.1.length = 2 ∧
    (epStep { gparse := fun s => s, parseGuid := false,
              matcher := some (fun _ _ _ => (Value.int 3, [Value.int 7, Value.int 8])) }
        [(1, ("g", []))] [(2, [("index", RVal.v (Value.int 1))])]
        { guids := [], calls := [] }
        { shId := 1, seId := 2, epId := 3, epIndex := Value.int 5, episode := [] }).2.1.map
      (fun e => e.num.2) = [Value.int 7, Value.int 8] := by
  have h := (episodes_matcher_fanout
    { gparse := fun s => s, parseGuid := false,
      matcher := some (fun _ _ _ => (Value.int 3, [Value.int 7, Value.int 8])) }
    [(1, ("g", []))] [(2, [("index", RVal.v (Value.int 1))])]
    { guids := [], calls := [] }
    { shId := 1, seId := 2, epId := 3, epIndex := Value.int 5, episode := [] }
    "g" [] [("index", RVal.v (Value.int 1))] rfl rfl).1
    (fun _ _ _ => (Value.int 3, [Value.int 7, Value.int 8]))
    (Value.int 3) [Value.int 7, Value.int 8] rfl rfl
  exact ⟨h.1, h.2.2.2⟩

/-- C8: the resilient row iterator.  When no fetch fails with a
non-unicode exception, the iterator yields exactly the cleanly decoded
rows, logs one structured warning (encoding, reason) per unicode-failed
fetch, and raises nothing; when some fetch fails with any other exception,
the iterator yields exactly the clean rows fetched before it, keeps the
warnings collected before it, and propagates that exception, aborting the
iteration. -/
theorem tupleIterator_unicode_skip :
    ∀ l : List Fetch,
      ((∀ e, Fetch.err e ∉ l) →
        tupleIterator l = (okRows l, unicodeWarns l, Option.none)) ∧
      (∀ (pre : List Fetch) (e : PyErr) (post : List Fetch),
        l = pre ++ Fetch.err e :: post → (∀ e2, Fetch.err e2 ∉ pre) →
        tupleIterator l = (okRows pre, unicodeWarns pre, some e)) := by
  intro l
  constructor
  · exact tupleIterator_clean l
  · intro pre e post hl h
    rw [hl]
    exact tupleIterator_abort pre e post h

/-- C8 witness: a unicode-failed fetch between two clean rows is skipped
with its warning; a differently-failed fetch aborts with its exception. -/
theorem tupleIterator_unicode_skip_witness :
    tupleIterator
        [Fetch.ok [Value.int 1], Fetch.unicodeErr "utf-8" "invalid start byte",
         Fetch.ok [Value.int 2]] =
      (okRows [Fetch.ok [Value.int 1], Fetch.unicodeErr "utf-8" "invalid start byte",
         Fetch.ok [Value.int 2]],
       unicodeWarns [Fetch.ok [Value.int 1], Fetch.unicodeErr "utf-8" "invalid start byte",
         Fetch.ok [Value.int 2]], Option.none) ∧
    tupleIterator [Fetch.ok [Value.int 1], Fetch.err PyErr.typeError, Fetch.ok [Value.int 2]] =
      (okRows [Fetch.ok [Value.int 1]], unicodeWarns [Fetch.ok [Value.int 1]],
       some PyErr.typeError) := by
  constructor
  · exact (tupleIterator_unicode_skip _).1 (by intro e he; simp at he)
  · exact (tupleIterator_unicode_skip _).2 [Fetch.ok [Value.int 1]] PyErr.typeError
      [Fetch.ok [Value.int 2]] rfl (by intro e2 he; simp at he)

/-- C9 counterexample: the model-grouping generator dedups by model NAME,
and the Episode alias shares the name of MetadataItem, so for the field
list [Episode.index, MetadataItem.id] it yields only the Episode alias —
the owning model of the second field (MetadataItem) is never yielded, so
it is not the case that the owning sub-entity model of each field is
yielded exactly once. -/
theorem libraryModels_alias_counterexample :
    libraryModels [episode_index_field, metadataItem_id] (some 1) = .ok [Model.episode] ∧
    metadataItem_id.modelClass = Model.metadataItem ∧
    Model.metadataItem ∉ [Model.episode] := by
  refine ⟨rfl, rfl, ?_⟩
  decide

/-- C9 (amended): with an account supplied, the model-grouping operation
yields, for each distinct owning-model NAME, exactly one model — the
first-seen one — in first-seen order (a sublist of the owning models in
field order, with no name repeated, covering the owning-model name of
every field).  Metadata-item aliases (Season, Episode) share the name of
MetadataItem and are collapsed with it rather than yielded separately. -/
theorem libraryModels_first_seen_by_name :
    ∀ (fields : List Field) (a : Nat),
      libraryModels fields (some a) =
        .ok (firstSeenByName (fields.map Field.modelClass) []) ∧
      ((firstSeenByName (fields.map Field.modelClass) []).map modelName).Nodup ∧
      (∀ f ∈ fields, modelName f.modelClass ∈
        (firstSeenByName (fields.map Field.modelClass) []).map modelName) ∧
      (firstSeenByName (fields.map Field.modelClass) []).Sublist
        (fields.map Field.modelClass) := by
  intro fields a
  refine ⟨modelsLoop_eq_firstSeen a fields [], (firstSeen_nodup_aux _ _).1, ?_,
    firstSeen_sublist _ _⟩
  intro f hf
  rcases firstSeen_covers (fields.map Field.modelClass) [] f.modelClass
      (List.mem_map_of_mem _ hf) with h | h
  · cases h
  · exact h

/-- C9 witness: the amended statement applied to the counterexample field
list. -/
theorem libraryModels_first_seen_by_name_witness :
    libraryModels [episode_index_field, metadataItem_id] (some 1) =
      .ok (firstSeenByName ([episode_index_field, metadataItem_id].map Field.modelClass) []) ∧
    modelName metadataItem_id.modelClass ∈
      (firstSeenByName ([episode_index_field, metadataItem_id].map Field.modelClass) []).map
        modelName :=
  ⟨(libraryModels_first_seen_by_name [episode_index_field, metadataItem_id] 1).1,
   (libraryModels_first_seen_by_name [episode_index_field, metadataItem_id] 1).2.2.1
     metadataItem_id (by decide)⟩

/-- C10: `count_items` returns the SQL scalar sum of the per-item
media-count column over the matching rows — None (not 0) exactly when no
episode row matches the given sections, since the SQL sum of an empty set
is NULL and is passed through unconverted; when rows match, it is the
arithmetic sum of their counts. -/
theorem count_items_empty_none :
    ∀ (db : List MetadataRow) (sections : List Nat),
      (count_items db sections = Option.none ↔
        db.filter (episodeMatches sections) = []) ∧
      (db.filter (episodeMatches sections) ≠ [] →
        count_items db sections =
          some (((db.filter (episodeMatches sections)).map
            (fun r => r.mediaItemCount)).foldl (· + ·) 0)) := by
  intro db sections
  constructor
  · unfold count_items
    cases hf : db.filter (episodeMatches sections) with
    | nil => simp [sqlSum]
    | cons x xs => simp [sqlSum]
  · intro hne
    unfold count_items
    cases hf : db.filter (episodeMatches sections) with
    | nil => exact absurd hf hne
    | cons x xs => simp [sqlSum]

/-- C10 witness: no matching rows gives None; one matching row with count
5 gives 5. -/
theorem count_items_empty_none_witness :
    count_items [] [1] = Option.none ∧
    count_items [{ librarySection := 1, metadataType := 4, mediaItemCount := 5 }] [1] =
      some 5 := by
  constructor
  · exact (count_items_empty_none [] [1]).1.mpr rfl
  · exact ((count_items_empty_none
      [{ librarySection := 1, metadataType := 4, mediaItemCount := 5 }] [1]).2
      (by decide)).trans (by decide)

end PlexDB
